import Mathlib

/-!
Verification of the PremRunner model import pipeline.

This file gives a shallow embedding, in Lean, of the core of the PremRunner
repository — the chunked upload assembler (`src/api/chunked-upload.ts`), the
multi-strategy archive extractor (`src/api/import-model.ts`), the model type
detector, the Modelfile builder and the import orchestrator
(`importModelToOllama`), and the status endpoint of the v1 API — and proves
or refutes the specified properties of those operations.

Bytes are modelled as natural numbers, file contents as lists of bytes or
strings, and the filesystem visible to each operation as an explicit value
(an association list keyed by path, or a record of the directory listings and
process outcomes the operation consumes).  Every definition is translated
from the TypeScript source; the doc comment of each definition names the
source function it embeds.
-/

set_option autoImplicit false

namespace PremRunner

/-! ## String helpers (JS semantics) -/

/-- Does the second list start with the first?  (Character-list version used
to express the "is under directory d" predicate decidably.) -/
def startsWithChars : List Char → List Char → Bool
  | [], _ => true
  | _ :: _, [] => false
  | c :: cs, d :: ds => c == d && startsWithChars cs ds

/-- Is `needle` a contiguous sublist of `hay`? -/
def listHasSub (needle hay : List Char) : Bool :=
  match hay with
  | [] => needle.isEmpty
  | _ :: rest => startsWithChars needle hay || listHasSub needle rest

/-- Does `hay` contain `pat` as a substring (JS `String.prototype.includes`)? -/
def strHasSub (hay pat : String) : Bool :=
  listHasSub pat.data hay.data

/-- ASCII model of JS `String.prototype.toLowerCase` (per-character). -/
def jsToLower (s : String) : String :=
  String.mk (s.data.map Char.toLower)

/-- JS `path.split('/').pop()`: the segment of `path` after the last slash
(`""` when the path ends in a slash).  Embeds the base-model-name extraction
at `src/unnamed/part_005` line 41. -/
def lastSegment (s : String) : String :=
  String.mk (s.data.foldl (fun acc c => if c = '/' then [] else acc ++ [c]) [])

/-- JS truthiness of an optional string: `undefined`, `null` and `""` are
falsy, every other string is truthy. -/
def jsTruthyOpt : Option String → Bool
  | none => false
  | some s => !(s == "")

/-- `p` lies strictly below directory `dir` (i.e. `p = dir ++ "/" ++ rest`). -/
def underDir (dir p : String) : Bool :=
  startsWithChars (dir.data ++ [Char.ofNat 47]) p.data

/-! ## ChunkAssembler (`src/api/chunked-upload.ts`)

The staging directory of one upload session is modelled as the list of
`Bun.write` events that hit it: `storeChunk` (the `POST /chunk` handler,
lines 44–48) prepends the written file, so a later write to the same index
shadows an earlier one, exactly as overwriting the file `chunk_<index>`
does on disk.  `assemble` (the loop of the `POST /complete` handler,
lines 74–95) reads `chunk_0 .. chunk_(totalChunks-1)` in order and
concatenates their bytes; reading an absent chunk file rejects with an
`ENOENT` error, modelled by `AssembleError.missingChunk`. -/

/-- Contents of a session staging directory: chunk files keyed by index,
most recent write first. -/
structure ChunkStore where
  files : List (Nat × List Nat)

/-- The empty staging directory created by `POST /start`. -/
def emptyStore : ChunkStore := ⟨[]⟩

/-- `POST /chunk`: `Bun.write(join(tempDir, "chunk_" + index), bytes)` —
overwrites any previous file of the same index
(`src/api/chunked-upload.ts` lines 44–48). -/
def storeChunk (st : ChunkStore) (index : Nat) (bytes : List Nat) : ChunkStore :=
  ⟨(index, bytes) :: st.files⟩

/-- Replay a sequence of `storeChunk` events (in arrival order) against the
empty staging directory. -/
def buildStore (events : List (Nat × List Nat)) : ChunkStore :=
  events.foldl (fun st e => storeChunk st e.1 e.2) emptyStore

/-- The bytes of chunk `i` after the event list has been replayed: the LAST
write to index `i` wins, `none` when index `i` was never stored. -/
def lastValue : List (Nat × List Nat) → Nat → Option (List Nat)
  | [], _ => none
  | e :: rest, i =>
    match lastValue rest i with
    | some b => some b
    | none => if e.1 = i then some e.2 else none

/-- Failure of assembly: `Bun.file(tempDir + "/chunk_" + index).arrayBuffer()`
rejects with `ENOENT` when the chunk file for `index` is absent
(`src/api/chunked-upload.ts` line 85). -/
inductive AssembleError where
  | missingChunk (index : Nat)
  deriving DecidableEq

/-- The assembly loop body over an explicit list of indices: read each chunk
file in turn and append its bytes to the destination file. -/
def assembleList (st : ChunkStore) : List Nat → Except AssembleError (List Nat)
  | [] => .ok []
  | i :: rest =>
    match st.files.lookup i with
    | none => .error (.missingChunk i)
    | some b =>
      match assembleList st rest with
      | .ok out => .ok (b ++ out)
      | .error e => .error e

/-- `POST /complete` (`src/api/chunked-upload.ts` lines 74–95): concatenate
chunks `0 .. totalChunks - 1` in index order into the destination file. -/
def assemble (st : ChunkStore) (totalChunks : Nat) : Except AssembleError (List Nat) :=
  assembleList st (List.range totalChunks)

/-- Concatenation of a list of chunk byte lists. -/
def concatChunks : List (List Nat) → List Nat
  | [] => []
  | b :: rest => b ++ concatChunks rest

theorem lookup_foldl_storeChunk (events : List (Nat × List Nat)) (acc : ChunkStore) (i : Nat) :
    ((events.foldl (fun st e => storeChunk st e.1 e.2) acc).files.lookup i) =
      (match lastValue events i with
       | some b => some b
       | none => acc.files.lookup i) := by
  induction events generalizing acc with
  | nil => simp [lastValue]
  | cons e rest ih =>
    simp only [List.foldl_cons, lastValue]
    rw [ih]
    cases h : lastValue rest i with
    | some b => simp
    | none =>
      simp only [storeChunk, List.lookup]
      by_cases hi : e.1 = i
      · simp [hi]
      · have hbe : (i == e.1) = false := by
          simp only [beq_eq_false_iff_ne]
          exact fun h2 => hi h2.symm
        simp [hbe, hi]

theorem buildStore_lookup (events : List (Nat × List Nat)) (i : Nat) :
    (buildStore events).files.lookup i = lastValue events i := by
  unfold buildStore
  rw [lookup_foldl_storeChunk]
  cases h : lastValue events i <;> simp [emptyStore]

theorem assembleList_ok (events : List (Nat × List Nat)) (l : List Nat)
    (h : ∀ i ∈ l, lastValue events i ≠ none) :
    assembleList (buildStore events) l =
      .ok (concatChunks (l.map (fun i => (lastValue events i).getD []))) := by
  induction l with
  | nil => simp [assembleList, concatChunks]
  | cons i rest ih =>
    have hi := h i (by simp)
    cases hv : lastValue events i with
    | none => exact absurd hv hi
    | some b =>
      simp only [assembleList, buildStore_lookup, hv]
      rw [ih (fun j hj => h j (by simp [hj]))]
      simp [concatChunks, hv]

theorem lastValue_some_mem_keys (l : List (Nat × List Nat)) (i : Nat) (b : List Nat)
    (h : lastValue l i = some b) : i ∈ l.map Prod.fst := by
  induction l with
  | nil => simp [lastValue] at h
  | cons e rest ih =>
    simp only [lastValue] at h
    cases hv : lastValue rest i with
    | some c =>
      rw [hv] at h
      cases h
      simp only [List.map_cons, List.mem_cons]
      exact Or.inr (ih hv)
    | none =>
      rw [hv] at h
      by_cases he : e.1 = i
      · simp only [List.map_cons, List.mem_cons]
        exact Or.inl he.symm
      · simp [he] at h

theorem lastValue_eq_some_iff (l : List (Nat × List Nat)) (i : Nat) (b : List Nat)
    (hnodup : (l.map Prod.fst).Nodup) :
    lastValue l i = some b ↔ (i, b) ∈ l := by
  induction l with
  | nil => simp [lastValue]
  | cons e rest ih =>
    simp only [List.map_cons, List.nodup_cons] at hnodup
    constructor
    · intro h
      simp only [lastValue] at h
      cases hv : lastValue rest i with
      | some c =>
        rw [hv] at h
        cases h
        exact List.mem_cons_of_mem _ ((ih hnodup.2).mp hv)
      | none =>
        rw [hv] at h
        by_cases he : e.1 = i
        · simp only [he, if_pos rfl] at h
          cases h
          have hee : (i, e.2) = e := by rw [← he]
          rw [hee]
          exact List.mem_cons_self e rest
        · simp [he] at h
    · intro h
      simp only [lastValue]
      rcases List.mem_cons.mp h with h1 | h1
      · have he1 : e.1 = i := by rw [← h1]
        have hrest : lastValue rest i = none := by
          cases hv : lastValue rest i with
          | none => rfl
          | some c =>
            have hk : i ∈ List.map Prod.fst rest := lastValue_some_mem_keys rest i c hv
            exact absurd hk (he1 ▸ hnodup.1)
        rw [hrest]
        rw [if_pos he1]
        have he2 : e.2 = b := by rw [← h1]
        rw [he2]
      · rw [(ih hnodup.2).mpr h1]

theorem lastValue_perm (l l2 : List (Nat × List Nat)) (hperm : l.Perm l2)
    (hnodup : (l.map Prod.fst).Nodup) (i : Nat) :
    lastValue l i = lastValue l2 i := by
  have hnodup2 : (l2.map Prod.fst).Nodup := (hperm.map Prod.fst).nodup_iff.mp hnodup
  cases hv : lastValue l i with
  | some b =>
    exact ((lastValue_eq_some_iff l2 i b hnodup2).mpr
      (hperm.mem_iff.mp ((lastValue_eq_some_iff l i b hnodup).mp hv))).symm
  | none =>
    cases hv2 : lastValue l2 i with
    | none => rfl
    | some b =>
      have : (i, b) ∈ l := hperm.mem_iff.mpr ((lastValue_eq_some_iff l2 i b hnodup2).mp hv2)
      rw [(lastValue_eq_some_iff l i b hnodup).mpr this] at hv
      cases hv

theorem lastValue_append_last (pre : List (Nat × List Nat)) (i : Nat) (b : List Nat) :
    lastValue (pre ++ [(i, b)]) i = some b := by
  induction pre with
  | nil => simp [lastValue]
  | cons e rest ih => simp [lastValue, ih]

/-- C1: for every sequence of stored chunks covering indices `[0, n)` with
no gaps, `assemble` (the `POST /complete` loop) produces a destination file
whose bytes are the chunks concatenated in increasing index order and whose
length is the sum of the chunk lengths; the result is unchanged under any
reordering of the store events (for duplicate-free indices), and when the
same index is stored twice the later write wins. -/
theorem assemble_concat_in_index_order
    (events eventsPerm : List (Nat × List Nat)) (n : Nat)
    (hcov : ∀ i, i < n → lastValue events i ≠ none)
    (hperm : events.Perm eventsPerm)
    (hkeys : (events.map Prod.fst).Nodup) :
    assemble (buildStore events) n =
      .ok (concatChunks ((List.range n).map (fun i => (lastValue events i).getD [])))
    ∧ (concatChunks ((List.range n).map (fun i => (lastValue events i).getD []))).length =
      ((List.range n).map (fun i => ((lastValue events i).getD []).length)).sum
    ∧ assemble (buildStore eventsPerm) n = assemble (buildStore events) n
    ∧ (∀ pre i b, lastValue (pre ++ [(i, b)]) i = some b) := by
  refine ⟨?_, ?_, ?_, lastValue_append_last⟩
  · exact assembleList_ok events (List.range n)
      (fun i hi => hcov i (List.mem_range.mp hi))
  · generalize (List.range n) = l
    induction l with
    | nil => simp [concatChunks]
    | cons j rest ih => simp [concatChunks, ih]
  · have heq : ∀ i, lastValue eventsPerm i = lastValue events i :=
      fun i => (lastValue_perm events eventsPerm hperm hkeys i).symm
    unfold assemble
    generalize (List.range n) = l
    induction l with
    | nil => simp [assembleList]
    | cons j rest ih =>
      simp only [assembleList, buildStore_lookup, heq j]
      cases lastValue events j with
      | none => rfl
      | some b => rw [ih]

theorem assemble_concat_in_index_order_witness :
    assemble (buildStore [(1, [7, 8]), (0, [5])]) 2 = .ok [5, 7, 8] := by
  have h := assemble_concat_in_index_order [(1, [7, 8]), (0, [5])]
    [(0, [5]), (1, [7, 8])] 2 (by decide) (by decide) (by decide)
  exact h.1.trans (congrArg Except.ok (by decide))

theorem assembleList_missing (st : ChunkStore) (l : List Nat)
    (h : ∃ i ∈ l, st.files.lookup i = none) :
    ∃ j ∈ l, st.files.lookup j = none ∧
      assembleList st l = .error (.missingChunk j) := by
  induction l with
  | nil => simp at h
  | cons i rest ih =>
    cases hv : st.files.lookup i with
    | none => exact ⟨i, by simp, hv, by simp [assembleList, hv]⟩
    | some b =>
      obtain ⟨j, hj, hjn⟩ := h
      rcases List.mem_cons.mp hj with rfl | hjr
      · rw [hv] at hjn; cases hjn
      · obtain ⟨k, hk, hkn, heq⟩ := ih ⟨j, hjr, hjn⟩
        exact ⟨k, List.mem_cons_of_mem _ hk, hkn, by simp [assembleList, hv, heq]⟩

/-- C3: for every `totalChunks` `n`, if some index in `[0, n)` was never
stored in the staging directory, `assemble` fails with a missing-chunk error
(the `ENOENT` rejection of reading the absent `chunk_j` file) instead of
silently producing a shorter output. -/
theorem assemble_missing_chunk_fails
    (events : List (Nat × List Nat)) (n i : Nat)
    (hi : i < n) (hmiss : lastValue events i = none) :
    ∃ j, j < n ∧ lastValue events j = none ∧
      assemble (buildStore events) n = .error (.missingChunk j) := by
  obtain ⟨j, hj, hjn, heq⟩ := assembleList_missing (buildStore events) (List.range n)
    ⟨i, List.mem_range.mpr hi, by rw [buildStore_lookup]; exact hmiss⟩
  exact ⟨j, List.mem_range.mp hj, by rw [buildStore_lookup] at hjn; exact hjn, heq⟩

theorem assemble_missing_chunk_fails_witness :
    ∃ j, j < 2 ∧ lastValue [(0, [5])] j = none ∧
      assemble (buildStore [(0, [5])]) 2 = .error (.missingChunk j) :=
  assemble_missing_chunk_fails [(0, [5])] 2 1 (by decide) (by decide)

/-! ## ArchiveExtractor (`src/api/import-model.ts` lines 7–170)

`extractZip` shells out to external processes; each process run is modelled
by its observable outcome (exit code and captured standard error), collected
in an `ExtractEnv`.  The control flow of `validateZipFile` (lines 7–51) and
`extractZip` (lines 53–162) is translated branch for branch. -/

/-- Outcome of one spawned process: exit code and captured stderr text. -/
structure ProcResult where
  exitCode : Nat
  stderr : String
  deriving DecidableEq

/-- Host platform: the ditto strategy runs only when
`process.platform === "darwin"` (line 74). -/
inductive Platform where
  | darwin
  | other
  deriving DecidableEq

/-- The process outcomes consumed by one `extractZip` run. -/
structure ExtractEnv where
  platform : Platform
  zipFileExists : Bool
  unzipList : ProcResult
  fileTypeOut : String
  ditto : ProcResult
  tar : ProcResult
  unzip : ProcResult
  python : ProcResult
  deriving DecidableEq

/-- `validateZipFile` (lines 7–51): the file exists and either `unzip -l`
exits 0 or the `file` output, lowercased, contains `"zip"`. -/
def validateZipFile (env : ExtractEnv) : Bool :=
  env.zipFileExists &&
    (env.unzipList.exitCode == 0 || strHasSub (jsToLower env.fileTypeOut) "zip")

/-- The message of the final all-strategies-failed error (line 161): only the
LAST retained stderr appears — the python fallback error if non-empty,
otherwise the unzip error (`extractionError = pythonStderr || extractionError`,
line 156); the ditto and tar errors are logged but never retained. -/
def extractAllFailedMsg (env : ExtractEnv) : String :=
  "Failed to extract zip with all methods. Last error: " ++
    (if env.python.stderr == "" then env.unzip.stderr else env.python.stderr)

/-- `extractZip` (lines 53–162): validate, then try ditto (macOS only), tar,
`unzip -o -q`, and a python `zipfile` fallback in order, stopping at the
first success; throw when validation fails or when every attempted strategy
fails. -/
def extractZip (zipPath : String) (env : ExtractEnv) : Except String Unit :=
  if !(validateZipFile env) then .error ("Invalid ZIP file: " ++ zipPath)
  else if env.platform == .darwin && env.ditto.exitCode == 0 then .ok ()
  else if env.tar.exitCode == 0 then .ok ()
  else if env.unzip.exitCode == 0 then .ok ()
  else if env.python.exitCode == 0 then .ok ()
  else .error (extractAllFailedMsg env)

/-- Environment in which all four strategies fail with distinct error texts
(macOS, so ditto is attempted too) and validation passes. -/
def extractEnvAllFail : ExtractEnv :=
  { platform := .darwin
    zipFileExists := true
    unzipList := ⟨0, ""⟩
    fileTypeOut := "Zip archive data"
    ditto := ⟨1, "DITTOERR"⟩
    tar := ⟨1, "TARERR"⟩
    unzip := ⟨1, "UNZIPERR"⟩
    python := ⟨1, "PYERR"⟩ }

/-- Environment whose archive fails validation (cannot be listed and has no
zip signature) while every extraction strategy would succeed. -/
def extractEnvInvalid : ExtractEnv :=
  { platform := .darwin
    zipFileExists := true
    unzipList := ⟨1, "listing failed"⟩
    fileTypeOut := "data"
    ditto := ⟨0, ""⟩
    tar := ⟨0, ""⟩
    unzip := ⟨0, ""⟩
    python := ⟨0, ""⟩ }

/-- C4 counterexample: when every strategy fails, the thrown failure is NOT a
composite diagnostic — it carries only the python fallback stderr, and the
ditto and tar error outputs are absent from it; moreover `extractZip` can
fail (validation failure) even though no extraction strategy failed. -/
theorem extractZip_diagnostic_not_composite :
    extractZip "a.zip" extractEnvAllFail =
      .error "Failed to extract zip with all methods. Last error: PYERR"
    ∧ strHasSub "Failed to extract zip with all methods. Last error: PYERR" "TARERR" = false
    ∧ strHasSub "Failed to extract zip with all methods. Last error: PYERR" "DITTOERR" = false
    ∧ extractEnvAllFail.tar.stderr = "TARERR"
    ∧ extractEnvAllFail.ditto.stderr = "DITTOERR"
    ∧ extractZip "c.zip" extractEnvInvalid = .error "Invalid ZIP file: c.zip"
    ∧ extractEnvInvalid.tar.exitCode = 0 := by
  refine ⟨rfl, by decide, by decide, rfl, rfl, rfl, rfl⟩

/-- C4 (amended): when validation passes, `extractZip` throws the
all-methods-failed error exactly when every attempted strategy fails (the
ditto strategy is attempted only on macOS), and every error it can then
throw is that message, which carries only the last retained stderr — the
python fallback error if non-empty, otherwise the unzip error. -/
theorem extractZip_error_iff_all_attempted_fail (zipPath : String) (env : ExtractEnv)
    (hvalid : validateZipFile env = true) :
    (extractZip zipPath env = .error (extractAllFailedMsg env) ↔
      ((env.platform = .darwin → env.ditto.exitCode ≠ 0) ∧
        env.tar.exitCode ≠ 0 ∧ env.unzip.exitCode ≠ 0 ∧ env.python.exitCode ≠ 0))
    ∧ (∀ e, extractZip zipPath env = .error e → e = extractAllFailedMsg env) := by
  have hval : (!(validateZipFile env)) = false := by rw [hvalid]; rfl
  by_cases hd : (env.platform == Platform.darwin && env.ditto.exitCode == 0) = true
  · have hdp : env.platform = Platform.darwin ∧ env.ditto.exitCode = 0 := by
      rcases Bool.and_eq_true_iff.mp hd with ⟨h1, h2⟩
      exact ⟨by exact beq_iff_eq.mp h1, by exact beq_iff_eq.mp h2⟩
    constructor
    · constructor
      · intro h
        simp [extractZip, hval, hd] at h
      · intro h
        exact absurd (h.1 hdp.1) (by simp [hdp.2])
    · intro e h
      simp [extractZip, hval, hd] at h
  · by_cases ht : (env.tar.exitCode == 0) = true
    · constructor
      · constructor
        · intro h
          simp [extractZip, hval, hd, ht] at h
        · intro h
          exact absurd (beq_iff_eq.mp ht) h.2.1
      · intro e h
        simp [extractZip, hval, hd, ht] at h
    · by_cases hu : (env.unzip.exitCode == 0) = true
      · constructor
        · constructor
          · intro h
            simp [extractZip, hval, hd, ht, hu] at h
          · intro h
            exact absurd (beq_iff_eq.mp hu) h.2.2.1
        · intro e h
          simp [extractZip, hval, hd, ht, hu] at h
      · by_cases hp : (env.python.exitCode == 0) = true
        · constructor
          · constructor
            · intro h
              simp [extractZip, hval, hd, ht, hu, hp] at h
            · intro h
              exact absurd (beq_iff_eq.mp hp) h.2.2.2
          · intro e h
            simp [extractZip, hval, hd, ht, hu, hp] at h
        · have hres : extractZip zipPath env = .error (extractAllFailedMsg env) := by
            simp [extractZip, hval, hd, ht, hu, hp]
          constructor
          · constructor
            · intro _
              refine ⟨?_, ?_, ?_, ?_⟩
              · intro hplat
                intro h0
                exact hd (by simp [hplat, h0])
              · exact fun h0 => ht (by simp [h0])
              · exact fun h0 => hu (by simp [h0])
              · exact fun h0 => hp (by simp [h0])
            · intro _
              exact hres
          · intro e h
            rw [hres] at h
            cases h
            rfl

/-- Environment for the witness: validation passes via the zip signature,
ditto is unavailable (non-macOS), and the remaining strategies fail. -/
def extractEnvWitness : ExtractEnv :=
  { platform := .other
    zipFileExists := true
    unzipList := ⟨1, "bad end of central directory"⟩
    fileTypeOut := "Zip archive data, at least v2.0 to extract"
    ditto := ⟨0, ""⟩
    tar := ⟨2, "tar: Unrecognized archive format"⟩
    unzip := ⟨9, "unzip: cannot find zipfile directory"⟩
    python := ⟨1, "Error: File is not a zip file"⟩ }

theorem extractZip_error_iff_all_attempted_fail_witness :
    extractZip "w.zip" extractEnvWitness =
      .error "Failed to extract zip with all methods. Last error: Error: File is not a zip file" := by
  have h := (extractZip_error_iff_all_attempted_fail "w.zip" extractEnvWitness (by decide)).1.mpr
    (by decide)
  have hm : extractAllFailedMsg extractEnvWitness =
      "Failed to extract zip with all methods. Last error: Error: File is not a zip file" := by
    decide
  rw [hm] at h
  exact h

/-! ## ModelTypeDetector (`src/unnamed/part_005` lines 13–62)

`detectModelType` consumes the extracted tree through three observations:
the top-level subdirectory listing (`ls -d extractDir/*/`, empty lines
filtered and trailing slashes stripped), the state of `adapter_config.json`
in the directory under inspection, and the presence of `config.json` there.
An `ExtractedTree` packages those observations. -/

/-- State of `adapter_config.json` in a directory: absent, present but
unparseable (`Bun.file(...).json()` throws, caught at line 45), or parsed
with an optional `base_model_name_or_path` string field. -/
inductive AdapterConfigState where
  | absent
  | unparseable
  | parsed (baseModelNameOrPath : Option String)
  deriving DecidableEq

/-- The observations of an extracted tree consumed by the detector and the
orchestrator. -/
structure ExtractedTree where
  rootSubdirs : List String
  adapterConfigAt : String → AdapterConfigState
  configJsonAt : String → Bool

/-- The two detected variants (`interface ModelType`, lines 8–11). -/
inductive MType where
  | full
  | lora
  deriving DecidableEq

/-- `{ type: 'full' | 'lora'; baseModel?: string }`. -/
structure ModelType where
  type : MType
  baseModel : Option String
  deriving DecidableEq

/-- `detectModelType` (lines 13–62): descend into a single top-level
subdirectory if there is exactly one; if `adapter_config.json` is present,
classify as lora, taking the base model name as the last path segment of a
truthy `base_model_name_or_path`; otherwise classify as full (with or
without `config.json`). -/
def detectModelType (extractDir : String) (t : ExtractedTree) : ModelType :=
  let checkDir :=
    match t.rootSubdirs with
    | [d] => d
    | _ => extractDir
  match t.adapterConfigAt checkDir with
  | .parsed bp =>
    match bp with
    | some p => if p == "" then ⟨.lora, none⟩ else ⟨.lora, some (lastSegment p)⟩
    | none => ⟨.lora, none⟩
  | .unparseable => ⟨.lora, none⟩
  | .absent =>
    if t.configJsonAt checkDir then ⟨.full, none⟩ else ⟨.full, none⟩

/-- C5: on a tree whose top level holds only an adapter-configuration file
declaring base-model path `"/x/y/base-7b"`, `detectModelType` returns the
lora variant with base model `"base-7b"`; in general the identifier is the
last path segment of any truthy declared value. -/
theorem detect_delta_last_path_segment (extractDir : String) (t : ExtractedTree)
    (hsub : t.rootSubdirs = [])
    (hconf : t.adapterConfigAt extractDir = .parsed (some "/x/y/base-7b")) :
    detectModelType extractDir t = ⟨.lora, some "base-7b"⟩
    ∧ ∀ (dir2 : String) (t2 : ExtractedTree) (p : String), p ≠ "" →
        t2.rootSubdirs = [] →
        t2.adapterConfigAt dir2 = .parsed (some p) →
        detectModelType dir2 t2 = ⟨.lora, some (lastSegment p)⟩ := by
  constructor
  · simp only [detectModelType, hsub, hconf]
    have : lastSegment "/x/y/base-7b" = "base-7b" := by decide
    simp [this]
  · intro dir2 t2 p hp hsub2 hconf2
    have hbe : (p == "") = false := by
      simp only [beq_eq_false_iff_ne]
      exact hp
    simp [detectModelType, hsub2, hconf2, hbe]

/-- A tree holding only `adapter_config.json` with the declared base path of
the C5 scenario. -/
def treeOnlyAdapter : ExtractedTree :=
  { rootSubdirs := []
    adapterConfigAt := fun d =>
      if d == "/m" then .parsed (some "/x/y/base-7b") else .absent
    configJsonAt := fun _ => false }

theorem detect_delta_last_path_segment_witness :
    detectModelType "/m" treeOnlyAdapter = ⟨.lora, some "base-7b"⟩ :=
  (detect_delta_last_path_segment "/m" treeOnlyAdapter rfl (by rfl)).1

/-! ## Filesystem model for the ModelfileBuilder

`createModelfile` (`src/unnamed/part_005` lines 196–364) reads, copies and
writes whole files.  The filesystem it touches is an association list from
path to file content, most recent write first. -/

/-- Files on disk, keyed by absolute path; a later write shadows an earlier
one. -/
def Fs : Type := List (String × String)

/-- Read the content of the file at `p`. -/
def fsRead (fs : Fs) (p : String) : Option String :=
  fs.lookup p

/-- `existsSync(p)`. -/
def fsExists (fs : Fs) (p : String) : Bool :=
  (fsRead fs p).isSome

/-- `Bun.write(p, v)` — overwrite the file at `p`. -/
def fsWrite (fs : Fs) (p v : String) : Fs :=
  (p, v) :: fs

/-- `cp src dst` — copy the file at `src` to `dst` (no-op if absent; the
source guards each copy with `existsSync`). -/
def fsCopy (fs : Fs) (src dst : String) : Fs :=
  match fsRead fs src with
  | some v => fsWrite fs dst v
  | none => fs

/-- JS `s.substring(0, s.lastIndexOf('/'))`: everything before the last
slash, `""` when there is none (line 294). -/
def beforeLastSlashChars : List Char → List Char
  | [] => []
  | c :: rest =>
    if rest.contains (Char.ofNat 47) then c :: beforeLastSlashChars rest
    else if c = Char.ofNat 47 then [] else []

/-- String version of `beforeLastSlashChars`. -/
def dirnameJs (s : String) : String :=
  String.mk (beforeLastSlashChars s.data)

/-- Directory listings and find results consumed by one `createModelfile`
run, together with the filesystem it starts from. -/
structure BuildEnv where
  fs : Fs
  fullSubdirs : List String
  weightFiles : List String
  baseSubdirs : List String

/-- Result of `createModelfile`: the filesystem after the run, the path of
the written Modelfile, and its content. -/
structure BuildResult where
  fs : Fs
  modelfilePath : String
  content : String

/-- The guarded copy pattern of lines 321–324 and 337–340:
`if (existsSync(src) && !existsSync(dst)) cp src dst`. -/
def condCopy (fs : Fs) (src dst : String) : Fs :=
  if fsExists fs src && !(fsExists fs dst) then fsCopy fs src dst else fs

/-- The non-adapter branch of `createModelfile` (lines 222–303 and 350–353):
descend into a single subdirectory if there is exactly one, retarget at the
directory of the first found weight file when a safetensors file is present,
and write a single `FROM` directive. -/
def createModelfileFull (modelPath modelfileDir : String) (env : BuildEnv) : BuildResult :=
  let p1 :=
    match env.fullSubdirs with
    | [d] => d
    | _ => modelPath
  let p2 :=
    if env.weightFiles.any (fun f => strHasSub f "safetensors") then
      match env.weightFiles with
      | f :: _ => dirnameJs f
      | [] => p1
    else p1
  { fs := fsWrite env.fs (modelfileDir ++ "/Modelfile") ("FROM " ++ p2)
    modelfilePath := modelfileDir ++ "/Modelfile"
    content := "FROM " ++ p2 }

/-- `createModelfile` (`src/unnamed/part_005` lines 196–364).

For a lora model with a truthy adapter path: copy `config.json` from the
base model directory into the adapter directory when the former has it and
the latter does not (lines 318–324); if the base model directory has exactly
one subdirectory, copy its `config.json` likewise (re-checking existence
after the first copy, lines 327–340) and point `FROM` at that subdirectory;
write a two-directive `FROM`/`ADAPTER` Modelfile.  Otherwise fall through to
the full-model branch (`modelType.type === 'lora' && processedAdapterPath`
is the JS truthiness test of line 315).

`env.fullSubdirs`, `env.weightFiles` and `env.baseSubdirs` model the
already-filtered outputs of the `find` invocations of lines 234–244, 260–283
and 327–328. -/
def createModelfile (mt : ModelType) (modelPath : String) (adapterPath : Option String)
    (modelfileDir : String) (env : BuildEnv) : BuildResult :=
  match mt.type, adapterPath with
  | .lora, some ap =>
    if ap = "" then createModelfileFull modelPath modelfileDir env
    else
      let baseCfg := modelPath ++ "/config.json"
      let adapterCfg := ap ++ "/config.json"
      let fs1 := condCopy env.fs baseCfg adapterCfg
      match env.baseSubdirs with
      | [d] =>
        let fs2 := condCopy fs1 (d ++ "/config.json") adapterCfg
        let content := "FROM " ++ d ++ "\nADAPTER " ++ ap
        { fs := fsWrite fs2 (modelfileDir ++ "/Modelfile") content
          modelfilePath := modelfileDir ++ "/Modelfile"
          content := content }
      | _ =>
        let content := "FROM " ++ modelPath ++ "\nADAPTER " ++ ap
        { fs := fsWrite fs1 (modelfileDir ++ "/Modelfile") content
          modelfilePath := modelfileDir ++ "/Modelfile"
          content := content }
  | .lora, none => createModelfileFull modelPath modelfileDir env
  | .full, _ => createModelfileFull modelPath modelfileDir env

theorem fsExists_write (fs : Fs) (p q : String) (v : String)
    (h : fsExists fs p = true) : fsExists (fsWrite fs q v) p = true := by
  simp only [fsExists, fsRead, fsWrite, List.lookup]
  by_cases hpq : (p == q) = true
  · simp [hpq]
  · simp only [Bool.not_eq_true] at hpq
    rw [hpq]
    exact h

theorem fsExists_copy (fs : Fs) (p src dst : String)
    (h : fsExists fs p = true) : fsExists (fsCopy fs src dst) p = true := by
  unfold fsCopy
  cases fsRead fs src with
  | some v => exact fsExists_write fs p dst v h
  | none => exact h

theorem fsExists_copy_dst (fs : Fs) (src dst : String)
    (h : fsExists fs src = true) : fsExists (fsCopy fs src dst) dst = true := by
  unfold fsCopy
  cases hv : fsRead fs src with
  | some v => simp [fsExists, fsRead, fsWrite, List.lookup]
  | none => simp [fsExists, hv] at h

theorem fsRead_write_ne (fs : Fs) (p q : String) (v : String)
    (h : p ≠ q) : fsRead (fsWrite fs q v) p = fsRead fs p := by
  simp only [fsRead, fsWrite, List.lookup]
  have hbe : (p == q) = false := by
    simp only [beq_eq_false_iff_ne]
    exact h
  rw [hbe]

theorem fsRead_copy_ne (fs : Fs) (p src dst : String)
    (h : p ≠ dst) : fsRead (fsCopy fs src dst) p = fsRead fs p := by
  unfold fsCopy
  cases fsRead fs src with
  | some v => exact fsRead_write_ne fs p dst v h
  | none => rfl

theorem condCopy_exists (fs : Fs) (src dst p : String)
    (h : fsExists fs p = true) : fsExists (condCopy fs src dst) p = true := by
  unfold condCopy
  by_cases hc : (fsExists fs src && !(fsExists fs dst)) = true
  · rw [if_pos hc]
    exact fsExists_copy fs p src dst h
  · rw [if_neg hc]
    exact h

theorem condCopy_gains (fs : Fs) (src dst : String)
    (h : fsExists fs src = true) : fsExists (condCopy fs src dst) dst = true := by
  unfold condCopy
  by_cases hd : fsExists fs dst = true
  · by_cases hc : (fsExists fs src && !(fsExists fs dst)) = true
    · rw [if_pos hc]
      exact fsExists_copy fs dst src dst hd
    · rw [if_neg hc]
      exact hd
  · have hdf : fsExists fs dst = false := by
      cases hx : fsExists fs dst with
      | false => rfl
      | true => exact absurd hx hd
    have hc : (fsExists fs src && !(fsExists fs dst)) = true := by
      rw [h, hdf]
      rfl
    rw [if_pos hc]
    exact fsExists_copy_dst fs src dst h

theorem condCopy_read_ne (fs : Fs) (src dst p : String)
    (h : p ≠ dst) : fsRead (condCopy fs src dst) p = fsRead fs p := by
  unfold condCopy
  by_cases hc : (fsExists fs src && !(fsExists fs dst)) = true
  · rw [if_pos hc]
    exact fsRead_copy_ne fs p src dst h
  · rw [if_neg hc]

theorem underDir_ne (dir p q : String) (hp : underDir dir p = true)
    (hq : underDir dir q = false) : p ≠ q := by
  intro h
  rw [h] at hp
  rw [hp] at hq
  cases hq

/-- C6: for a lora build with a truthy adapter path, (a) the adapter
directory ends up containing `config.json` whenever it already had one or
the base model directory (or its single subdirectory, when the `find`
listing shows exactly one) has one; (b) the emitted Modelfile content has
both a `FROM` directive (pointing at the base model directory or its single
subdirectory) and an `ADAPTER` directive; and (c) no file other than the
adapter directory's `config.json` and the written Modelfile changes — in
particular every file under the base model directory is untouched whenever
those two paths are not under it. -/
theorem createModelfile_lora (mt : ModelType) (modelPath ap modelfileDir : String)
    (env : BuildEnv) (r : BuildResult) (hm : mt.type = .lora) (hap : ap ≠ "")
    (hr : r = createModelfile mt modelPath (some ap) modelfileDir env) :
    ((fsExists env.fs (ap ++ "/config.json") = true
        ∨ fsExists env.fs (modelPath ++ "/config.json") = true
        ∨ (∃ d, env.baseSubdirs = [d] ∧ fsExists env.fs (d ++ "/config.json") = true)) →
      fsExists r.fs (ap ++ "/config.json") = true)
    ∧ (∃ base, r.content = "FROM " ++ base ++ "\nADAPTER " ++ ap
        ∧ (base = modelPath ∨ env.baseSubdirs = [base]))
    ∧ (∀ q, q ≠ ap ++ "/config.json" → q ≠ modelfileDir ++ "/Modelfile" →
        fsRead r.fs q = fsRead env.fs q)
    ∧ (underDir modelPath (ap ++ "/config.json") = false →
        underDir modelPath (modelfileDir ++ "/Modelfile") = false →
        ∀ q, underDir modelPath q = true → fsRead r.fs q = fsRead env.fs q) := by
  unfold createModelfile at hr
  rw [hm] at hr
  simp only [if_neg hap] at hr
  cases hsd : env.baseSubdirs with
  | nil =>
    rw [hsd] at hr
    simp only at hr
    refine ⟨?_, ?_, ?_, ?_⟩
    · intro hpre
      rw [hr]
      apply fsExists_write
      rcases hpre with h | h | ⟨d, hd, _⟩
      · exact condCopy_exists _ _ _ _ h
      · exact condCopy_gains _ _ _ h
      · cases hd
    · exact ⟨modelPath, by rw [hr], Or.inl rfl⟩
    · intro q h1 h2
      rw [hr]
      show fsRead (fsWrite _ _ _) q = _
      rw [fsRead_write_ne _ _ _ _ h2]
      exact condCopy_read_ne _ _ _ _ h1
    · intro hu1 hu2 q hq
      rw [hr]
      show fsRead (fsWrite _ _ _) q = _
      rw [fsRead_write_ne _ _ _ _ (underDir_ne _ _ _ hq hu2)]
      exact condCopy_read_ne _ _ _ _ (underDir_ne _ _ _ hq hu1)
  | cons d tl =>
    cases tl with
    | nil =>
      rw [hsd] at hr
      simp only at hr
      refine ⟨?_, ?_, ?_, ?_⟩
      · intro hpre
        rw [hr]
        apply fsExists_write
        rcases hpre with h | h | ⟨d0, hd0, hex⟩
        · exact condCopy_exists _ _ _ _ (condCopy_exists _ _ _ _ h)
        · exact condCopy_exists _ _ _ _ (condCopy_gains _ _ _ h)
        · cases hd0
          exact condCopy_gains _ _ _ (condCopy_exists _ _ _ _ hex)
      · exact ⟨d, by rw [hr], Or.inr rfl⟩
      · intro q h1 h2
        rw [hr]
        show fsRead (fsWrite _ _ _) q = _
        rw [fsRead_write_ne _ _ _ _ h2]
        rw [condCopy_read_ne _ _ _ _ h1]
        exact condCopy_read_ne _ _ _ _ h1
      · intro hu1 hu2 q hq
        rw [hr]
        show fsRead (fsWrite _ _ _) q = _
        rw [fsRead_write_ne _ _ _ _ (underDir_ne _ _ _ hq hu2)]
        rw [condCopy_read_ne _ _ _ _ (underDir_ne _ _ _ hq hu1)]
        exact condCopy_read_ne _ _ _ _ (underDir_ne _ _ _ hq hu1)
    | cons d2 tl2 =>
      rw [hsd] at hr
      simp only at hr
      refine ⟨?_, ?_, ?_, ?_⟩
      · intro hpre
        rw [hr]
        apply fsExists_write
        rcases hpre with h | h | ⟨d0, hd0, _⟩
        · exact condCopy_exists _ _ _ _ h
        · exact condCopy_gains _ _ _ h
        · exact absurd hd0 (by simp)
      · exact ⟨modelPath, by rw [hr], Or.inl rfl⟩
      · intro q h1 h2
        rw [hr]
        show fsRead (fsWrite _ _ _) q = _
        rw [fsRead_write_ne _ _ _ _ h2]
        exact condCopy_read_ne _ _ _ _ h1
      · intro hu1 hu2 q hq
        rw [hr]
        show fsRead (fsWrite _ _ _) q = _
        rw [fsRead_write_ne _ _ _ _ (underDir_ne _ _ _ hq hu2)]
        exact condCopy_read_ne _ _ _ _ (underDir_ne _ _ _ hq hu1)

/-- Build environment of the witness: the base model directory holds
`config.json` and one weight file, the adapter directory holds only adapter
files, and the base model has no single wrapping subdirectory. -/
def buildEnvWitness : BuildEnv :=
  { fs := [("base/b1/config.json", "cfg"), ("base/b1/model.safetensors", "w"),
           ("models/m1/adapter_model.safetensors", "a")]
    fullSubdirs := []
    weightFiles := []
    baseSubdirs := [] }

theorem createModelfile_lora_witness :
    fsExists (createModelfile ⟨.lora, some "b1"⟩ "base/b1" (some "models/m1") "models/m1_modelfile"
        buildEnvWitness).fs ("models/m1" ++ "/config.json") = true
    ∧ (createModelfile ⟨.lora, some "b1"⟩ "base/b1" (some "models/m1") "models/m1_modelfile"
        buildEnvWitness).content = "FROM " ++ "base/b1" ++ "\nADAPTER " ++ "models/m1"
    ∧ fsRead (createModelfile ⟨.lora, some "b1"⟩ "base/b1" (some "models/m1") "models/m1_modelfile"
        buildEnvWitness).fs "base/b1/config.json" = fsRead buildEnvWitness.fs "base/b1/config.json" := by
  have h := createModelfile_lora ⟨.lora, some "b1"⟩ "base/b1" "models/m1" "models/m1_modelfile"
    buildEnvWitness (createModelfile ⟨.lora, some "b1"⟩ "base/b1" (some "models/m1")
      "models/m1_modelfile" buildEnvWitness) rfl (by decide) rfl
  refine ⟨h.1 (Or.inr (Or.inl (by decide))), ?_, ?_⟩
  · obtain ⟨base, hb, hcase⟩ := h.2.1
    rcases hcase with hcase | hcase
    · rw [hb, hcase]
    · simp [buildEnvWitness] at hcase
  · exact h.2.2.1 "base/b1/config.json" (by decide) (by decide)

/-! ## ImportOrchestrator (`src/unnamed/part_005` lines 366–524)

`importModelToOllama` sequences extraction, detection, base-model resolution,
Modelfile creation and the `ollama create` invocation, updating the `models`
row (`downloaded` boolean) and cleaning up directories.  The outcomes of the
external steps it consumes are collected in an `ImportEnv`; the observable
final state (thrown error or success, the persisted `downloaded` flag given
the row started at `false`, which directories remain, and which external
actions ran) is an `ImportResult`.  Wrapped error messages elide the inner
error text except for the `ollama create` failure, whose stringification is
modelled by `jsErrStr`. -/

/-- The outcomes of the external steps consumed by one `importModelToOllama`
run. -/
structure ImportEnv where
  zipExists : Bool
  extractOk : Bool
  tree : ExtractedTree
  baseCached : Bool
  curlExitCode : Nat
  baseUnzipOk : Bool
  ollamaStdout : List String
  ollamaExitCode : Nat
  ollamaStderr : String

/-- Observable final state of one `importModelToOllama` run. -/
structure ImportResult where
  outcome : Except String Unit
  downloaded : Bool
  extractDirExists : Bool
  modelfileDirExists : Bool
  downloadAttempted : Bool
  ranOllama : Bool

/-- JS stringification of a thrown `Error` inside a template literal. -/
def jsErrStr (m : String) : String := "Error: " ++ m

/-- The error thrown at line 466 when a lora model declares no truthy base
model identifier. -/
def unresolvedBaseModelMsg : String :=
  "LoRA model detected but no base model specified in adapter_config.json"

/-- `runOllamaCreate` (lines 366–398): the stdout stream is read and logged
line by line but never inspected for success; only the exit code decides,
and a non-zero exit throws with the captured stderr. -/
def runOllamaCreate (stdoutLines : List String) (exitCode : Nat) (stderr : String) :
    Except String Unit :=
  if exitCode = 0 then .ok ()
  else .error ("Failed to create Ollama model: " ++ stderr)

/-- The tail of the pipeline once a base model path is resolved:
`createModelfile` (always succeeds at orchestration level, creating the
modelfile directory), then `runOllamaCreate`; on non-zero exit both the
extraction and modelfile directories are deleted (lines 489–499), on
success `downloaded` is set and only the modelfile directory is removed
(lines 501–509). -/
def finishImport (downloadAttempted : Bool) (env : ImportEnv) : ImportResult :=
  match runOllamaCreate env.ollamaStdout env.ollamaExitCode env.ollamaStderr with
  | .error msg =>
    { outcome := .error ("Failed to create Ollama model: " ++ jsErrStr msg)
      downloaded := false
      extractDirExists := false
      modelfileDirExists := false
      downloadAttempted := downloadAttempted
      ranOllama := true }
  | .ok _ =>
    { outcome := .ok ()
      downloaded := true
      extractDirExists := true
      modelfileDirExists := false
      downloadAttempted := downloadAttempted
      ranOllama := true }

/-- Result of a run whose zip file is already gone (line 410). -/
def zipMissingResult : ImportResult :=
  { outcome := .error "ZIP file not found"
    downloaded := false
    extractDirExists := false
    modelfileDirExists := false
    downloadAttempted := false
    ranOllama := false }

/-- Result of a run whose extraction fails: the partially extracted
directory is deleted (lines 424–431). -/
def extractFailResult : ImportResult :=
  { outcome := .error "Failed to extract model ZIP"
    downloaded := false
    extractDirExists := false
    modelfileDirExists := false
    downloadAttempted := false
    ranOllama := false }

/-- Result of a run whose base model download or extraction fails: the
extraction directory is deleted (lines 457–464). -/
def downloadFailResult : ImportResult :=
  { outcome := .error "Failed to download base model"
    downloaded := false
    extractDirExists := false
    modelfileDirExists := false
    downloadAttempted := true
    ranOllama := false }

/-- Result of a run that throws `unresolvedBaseModelMsg` (line 466): NO
directory cleanup happens on this path — the outer catch (lines 512–523)
only updates the database row. -/
def unresolvedResult : ImportResult :=
  { outcome := .error unresolvedBaseModelMsg
    downloaded := false
    extractDirExists := true
    modelfileDirExists := false
    downloadAttempted := false
    ranOllama := false }

/-- `importModelToOllama` (lines 400–524), with `extractDir` the
`DATA_PATH/models/<modelId>` directory: verify the zip exists, extract it,
detect the model type, resolve the base model for a lora model with a truthy
identifier (cache hit short-circuits the download), then build the
Modelfile and invoke `ollama create`. -/
def importModelToOllama (extractDir : String) (env : ImportEnv) : ImportResult :=
  if env.zipExists = false then zipMissingResult
  else if env.extractOk = false then extractFailResult
  else
    match (detectModelType extractDir env.tree).type with
    | .lora =>
      if jsTruthyOpt (detectModelType extractDir env.tree).baseModel = true then
        if env.baseCached = true then finishImport false env
        else if env.curlExitCode ≠ 0 ∨ env.baseUnzipOk = false then downloadFailResult
        else finishImport true env
      else unresolvedResult
    | .full => finishImport false env

/-- `GET /models/:id/status` (`src/unnamed/part_003` lines 487–519): the
persisted record has only the boolean `downloaded` column, and the endpoint
maps it to `"ready"` or `"importing"` (line 505). -/
def modelStatus (downloaded : Bool) : String :=
  if downloaded then "ready" else "importing"

theorem finishImport_exit_eq (da : Bool) (env : ImportEnv) (h : env.ollamaExitCode = 0) :
    finishImport da env =
      { outcome := .ok ()
        downloaded := true
        extractDirExists := true
        modelfileDirExists := false
        downloadAttempted := da
        ranOllama := true } := by
  simp [finishImport, runOllamaCreate, h]

theorem finishImport_exit_ne (da : Bool) (env : ImportEnv) (h : env.ollamaExitCode ≠ 0) :
    finishImport da env =
      { outcome := .error ("Failed to create Ollama model: " ++
          jsErrStr ("Failed to create Ollama model: " ++ env.ollamaStderr))
        downloaded := false
        extractDirExists := false
        modelfileDirExists := false
        downloadAttempted := da
        ranOllama := true } := by
  simp [finishImport, runOllamaCreate, h]

theorem bool_eq_true_of_ne_false (b : Bool) (h : ¬ b = false) : b = true := by
  cases b with
  | false => exact absurd rfl h
  | true => rfl

theorem import_zip_missing (dir : String) (env : ImportEnv) (h : env.zipExists = false) :
    importModelToOllama dir env = zipMissingResult := by
  simp [importModelToOllama, h]

theorem import_extract_fail (dir : String) (env : ImportEnv)
    (hz : env.zipExists = true) (he : env.extractOk = false) :
    importModelToOllama dir env = extractFailResult := by
  simp [importModelToOllama, hz, he]

theorem import_full (dir : String) (env : ImportEnv)
    (hz : env.zipExists = true) (he : env.extractOk = true)
    (hmt : (detectModelType dir env.tree).type = .full) :
    importModelToOllama dir env = finishImport false env := by
  simp [importModelToOllama, hz, he, hmt]

theorem import_unresolved (dir : String) (env : ImportEnv)
    (hz : env.zipExists = true) (he : env.extractOk = true)
    (hmt : (detectModelType dir env.tree).type = .lora)
    (hfalsy : jsTruthyOpt (detectModelType dir env.tree).baseModel = false) :
    importModelToOllama dir env = unresolvedResult := by
  simp [importModelToOllama, hz, he, hmt, hfalsy]

theorem import_download_fail (dir : String) (env : ImportEnv)
    (hz : env.zipExists = true) (he : env.extractOk = true)
    (hmt : (detectModelType dir env.tree).type = .lora)
    (htr : jsTruthyOpt (detectModelType dir env.tree).baseModel = true)
    (hc : env.baseCached = false)
    (hdl : env.curlExitCode ≠ 0 ∨ env.baseUnzipOk = false) :
    importModelToOllama dir env = downloadFailResult := by
  simp [importModelToOllama, hz, he, hmt, htr, hc, hdl]

theorem import_cached (dir : String) (env : ImportEnv)
    (hz : env.zipExists = true) (he : env.extractOk = true)
    (hmt : (detectModelType dir env.tree).type = .lora)
    (htr : jsTruthyOpt (detectModelType dir env.tree).baseModel = true)
    (hc : env.baseCached = true) :
    importModelToOllama dir env = finishImport false env := by
  simp [importModelToOllama, hz, he, hmt, htr, hc]

theorem import_downloaded (dir : String) (env : ImportEnv)
    (hz : env.zipExists = true) (he : env.extractOk = true)
    (hmt : (detectModelType dir env.tree).type = .lora)
    (htr : jsTruthyOpt (detectModelType dir env.tree).baseModel = true)
    (hc : env.baseCached = false)
    (hcurl : env.curlExitCode = 0) (hunzip : env.baseUnzipOk = true) :
    importModelToOllama dir env = finishImport true env := by
  have hdl : ¬ (env.curlExitCode ≠ 0 ∨ env.baseUnzipOk = false) := by
    rw [hcurl, hunzip]
    simp
  simp [importModelToOllama, hz, he, hmt, htr, hc, hdl]

/-- Every run either reaches the `ollama create` step (and equals
`finishImport`) or short-circuits with the row left at `downloaded = false`
and the runtime never invoked. -/
theorem importResult_cases (dir : String) (env : ImportEnv) :
    (∃ da, importModelToOllama dir env = finishImport da env)
    ∨ ((importModelToOllama dir env).downloaded = false
        ∧ (importModelToOllama dir env).ranOllama = false
        ∧ (∃ e, (importModelToOllama dir env).outcome = .error e)) := by
  by_cases hz : env.zipExists = false
  · right
    rw [import_zip_missing dir env hz]
    exact ⟨rfl, rfl, "ZIP file not found", rfl⟩
  · have hz2 := bool_eq_true_of_ne_false _ hz
    by_cases he : env.extractOk = false
    · right
      rw [import_extract_fail dir env hz2 he]
      exact ⟨rfl, rfl, "Failed to extract model ZIP", rfl⟩
    · have he2 := bool_eq_true_of_ne_false _ he
      cases hmt : (detectModelType dir env.tree).type with
      | full => exact Or.inl ⟨false, import_full dir env hz2 he2 hmt⟩
      | lora =>
        by_cases htr : jsTruthyOpt (detectModelType dir env.tree).baseModel = true
        · by_cases hc : env.baseCached = true
          · exact Or.inl ⟨false, import_cached dir env hz2 he2 hmt htr hc⟩
          · have hc2 : env.baseCached = false := by
              cases hx : env.baseCached with
              | false => rfl
              | true => exact absurd hx hc
            by_cases hdl : env.curlExitCode ≠ 0 ∨ env.baseUnzipOk = false
            · right
              rw [import_download_fail dir env hz2 he2 hmt htr hc2 hdl]
              exact ⟨rfl, rfl, "Failed to download base model", rfl⟩
            · push_neg at hdl
              have hunzip := bool_eq_true_of_ne_false _ hdl.2
              exact Or.inl ⟨true, import_downloaded dir env hz2 he2 hmt htr hc2 hdl.1 hunzip⟩
        · have htr2 : jsTruthyOpt (detectModelType dir env.tree).baseModel = false := by
            cases hx : jsTruthyOpt (detectModelType dir env.tree).baseModel with
            | false => rfl
            | true => exact absurd hx htr
          right
          rw [import_unresolved dir env hz2 he2 hmt htr2]
          exact ⟨rfl, rfl, unresolvedBaseModelMsg, rfl⟩

/-- C2 (divergence evidence): after ANY failed import the persisted row has
`downloaded = false`, and the status endpoint therefore reports
`"importing"` — never `"failed"`, which the schema cannot represent. -/
theorem status_after_failure_is_importing (dir : String) (env : ImportEnv) (e : String)
    (h : (importModelToOllama dir env).outcome = .error e) :
    (importModelToOllama dir env).downloaded = false
    ∧ modelStatus (importModelToOllama dir env).downloaded = "importing"
    ∧ modelStatus (importModelToOllama dir env).downloaded ≠ "failed" := by
  have hd : (importModelToOllama dir env).downloaded = false := by
    rcases importResult_cases dir env with ⟨da, hc⟩ | hc
    · rw [hc] at h ⊢
      by_cases hx : env.ollamaExitCode = 0
      · rw [finishImport_exit_eq da env hx] at h
        simp at h
      · rw [finishImport_exit_ne da env hx]
    · exact hc.1
  rw [hd]
  exact ⟨rfl, rfl, by decide⟩

/-- The tree of the end-to-end failure scenario: `adapter_config.json`
present, parseable, with no `base_model_name_or_path` field. -/
def treeNoBaseField : ExtractedTree :=
  { rootSubdirs := []
    adapterConfigAt := fun _ => .parsed none
    configJsonAt := fun _ => false }

/-- Environment of the end-to-end unresolved-base-model scenario. -/
def envUnresolved : ImportEnv :=
  { zipExists := true
    extractOk := true
    tree := treeNoBaseField
    baseCached := false
    curlExitCode := 0
    baseUnzipOk := true
    ollamaStdout := []
    ollamaExitCode := 0
    ollamaStderr := "" }

theorem status_after_failure_is_importing_witness :
    (importModelToOllama "models/m9" envUnresolved).downloaded = false
    ∧ modelStatus (importModelToOllama "models/m9" envUnresolved).downloaded = "importing" := by
  have h := status_after_failure_is_importing "models/m9" envUnresolved
    unresolvedBaseModelMsg (by rfl)
  exact ⟨h.1, h.2.1⟩

/-- C7 counterexample: in the end-to-end unresolved-base-model scenario
the import fails and the row stays not-ready, but the extraction directory is
NOT deleted — the line-466 throw reaches the outer catch, which performs no
directory cleanup. -/
theorem unresolved_keeps_extraction_dir :
    (importModelToOllama "models/m1" envUnresolved).outcome = .error unresolvedBaseModelMsg
    ∧ (importModelToOllama "models/m1" envUnresolved).downloaded = false
    ∧ (importModelToOllama "models/m1" envUnresolved).extractDirExists = true := by
  have h := import_unresolved "models/m1" envUnresolved rfl rfl (by rfl) (by rfl)
  rw [h]
  exact ⟨rfl, rfl, rfl⟩

/-- C7 (amended): the cleanup deletes the extraction directory on extraction
failure, on base-model download failure, and on runtime-create failure (then
together with the modelfile directory); but on the unresolved-base-model
failure the record is only marked not-ready and the extraction directory
survives. -/
theorem import_failure_cleanup_policy (dir : String) (env : ImportEnv) :
    (env.zipExists = true → env.extractOk = false →
      (importModelToOllama dir env).extractDirExists = false
      ∧ (importModelToOllama dir env).downloaded = false)
    ∧ (env.zipExists = true → env.extractOk = true →
        (detectModelType dir env.tree).type = .lora →
        jsTruthyOpt (detectModelType dir env.tree).baseModel = true →
        env.baseCached = false → (env.curlExitCode ≠ 0 ∨ env.baseUnzipOk = false) →
        (importModelToOllama dir env).extractDirExists = false
        ∧ (importModelToOllama dir env).downloaded = false)
    ∧ ((importModelToOllama dir env).ranOllama = true → env.ollamaExitCode ≠ 0 →
        (importModelToOllama dir env).extractDirExists = false
        ∧ (importModelToOllama dir env).modelfileDirExists = false
        ∧ (importModelToOllama dir env).downloaded = false)
    ∧ (env.zipExists = true → env.extractOk = true →
        (detectModelType dir env.tree).type = .lora →
        jsTruthyOpt (detectModelType dir env.tree).baseModel = false →
        (importModelToOllama dir env).outcome = .error unresolvedBaseModelMsg
        ∧ (importModelToOllama dir env).downloaded = false
        ∧ (importModelToOllama dir env).extractDirExists = true) := by
  refine ⟨?_, ?_, ?_, ?_⟩
  · intro hz he
    rw [import_extract_fail dir env hz he]
    exact ⟨rfl, rfl⟩
  · intro hz he hmt htr hc hdl
    rw [import_download_fail dir env hz he hmt htr hc hdl]
    exact ⟨rfl, rfl⟩
  · intro hran hx
    rcases importResult_cases dir env with ⟨da, hc⟩ | hc
    · rw [hc]
      rw [finishImport_exit_ne da env hx]
      exact ⟨rfl, rfl, rfl⟩
    · rw [hran] at hc
      exact absurd hc.2.1 (by decide)
  · intro hz he hmt hfalsy
    rw [import_unresolved dir env hz he hmt hfalsy]
    exact ⟨rfl, rfl, rfl⟩

/-- Environment in which `ollama create` exits non-zero on a full model. -/
def envOllamaFail : ImportEnv :=
  { zipExists := true
    extractOk := true
    tree := { rootSubdirs := []
              adapterConfigAt := fun _ => .absent
              configJsonAt := fun _ => true }
    baseCached := false
    curlExitCode := 0
    baseUnzipOk := true
    ollamaStdout := ["transferring model data"]
    ollamaExitCode := 1
    ollamaStderr := "Error: unsupported architecture" }

theorem import_failure_cleanup_policy_witness :
    (importModelToOllama "models/m3" envOllamaFail).extractDirExists = false
    ∧ (importModelToOllama "models/m3" envOllamaFail).modelfileDirExists = false
    ∧ (importModelToOllama "models/m3" envOllamaFail).downloaded = false := by
  have h := (import_failure_cleanup_policy "models/m3" envOllamaFail).2.2.1
    (by rfl) (by decide)
  exact h

/-- C8: the row is set to `downloaded = true` only when the run reached the
`ollama create` invocation and it exited with code 0; the streamed stdout of
that process never influences the result; and a non-zero exit fails
the import with the captured stderr embedded in the failure reason. -/
theorem ready_only_on_runtime_exit_zero (dir : String) (env : ImportEnv) (l1 l2 : List String) :
    ((importModelToOllama dir env).downloaded = true →
      (importModelToOllama dir env).ranOllama = true ∧ env.ollamaExitCode = 0
      ∧ (importModelToOllama dir env).outcome = .ok ())
    ∧ importModelToOllama dir { env with ollamaStdout := l1 } =
        importModelToOllama dir { env with ollamaStdout := l2 }
    ∧ ((importModelToOllama dir env).ranOllama = true → env.ollamaExitCode ≠ 0 →
        (importModelToOllama dir env).outcome =
          .error ("Failed to create Ollama model: " ++
            jsErrStr ("Failed to create Ollama model: " ++ env.ollamaStderr))
        ∧ (importModelToOllama dir env).downloaded = false) := by
  refine ⟨?_, ?_, ?_⟩
  · intro h
    rcases importResult_cases dir env with ⟨da, hc⟩ | hc
    · rw [hc] at h ⊢
      by_cases hx : env.ollamaExitCode = 0
      · rw [finishImport_exit_eq da env hx]
        exact ⟨rfl, hx, rfl⟩
      · rw [finishImport_exit_ne da env hx] at h
        simp at h
    · rw [hc.1] at h
      cases h
  · rfl
  · intro hran hx
    rcases importResult_cases dir env with ⟨da, hc⟩ | hc
    · rw [hc]
      rw [finishImport_exit_ne da env hx]
      exact ⟨rfl, rfl⟩
    · rw [hran] at hc
      exact absurd hc.2.1 (by decide)

/-- Environment of a successful full-model import. -/
def envFullOk : ImportEnv :=
  { zipExists := true
    extractOk := true
    tree := { rootSubdirs := []
              adapterConfigAt := fun _ => .absent
              configJsonAt := fun _ => true }
    baseCached := false
    curlExitCode := 0
    baseUnzipOk := true
    ollamaStdout := ["using existing layer"]
    ollamaExitCode := 0
    ollamaStderr := "" }

theorem ready_only_on_runtime_exit_zero_witness :
    (importModelToOllama "models/m4" envFullOk).ranOllama = true
    ∧ envFullOk.ollamaExitCode = 0
    ∧ (importModelToOllama "models/m4" envFullOk).outcome = .ok () := by
  exact (ready_only_on_runtime_exit_zero "models/m4" envFullOk [] ["line"]).1 (by rfl)

theorem lastSegment_trailing_slash (s : String) (l : List Char)
    (h : s.data = l ++ [Char.ofNat 47]) : lastSegment s = "" := by
  unfold lastSegment
  rw [h, List.foldl_append]
  rfl

theorem ne_empty_of_trailing_slash (s : String) (l : List Char)
    (h : s.data = l ++ [Char.ofNat 47]) : s ≠ "" := by
  intro hs
  rw [hs] at h
  exact absurd h.symm (List.append_ne_nil_of_right_ne_nil l (by simp))

/-- C10: when `adapter_config.json` declares a non-empty
`base_model_name_or_path` ending in a slash, `detectModelType` returns the
lora variant with the EMPTY string as base model (`split('/').pop()` of a
trailing-slash path), and the orchestrator — whose JS truthiness test
rejects the empty string — fails with the unresolved-base-model error
without attempting any download, exactly as in the no-identifier case. -/
theorem trailing_slash_treated_as_unresolved (dir : String) (env : ImportEnv)
    (p : String) (l : List Char)
    (hdata : p.data = l ++ [Char.ofNat 47])
    (hsub : env.tree.rootSubdirs = [])
    (hconf : env.tree.adapterConfigAt dir = .parsed (some p))
    (hz : env.zipExists = true) (he : env.extractOk = true) :
    detectModelType dir env.tree = ⟨.lora, some ""⟩
    ∧ (importModelToOllama dir env).outcome = .error unresolvedBaseModelMsg
    ∧ (importModelToOllama dir env).downloadAttempted = false
    ∧ (∀ env2 : ImportEnv, env2.zipExists = true → env2.extractOk = true →
        env2.tree.rootSubdirs = [] → env2.tree.adapterConfigAt dir = .parsed none →
        importModelToOllama dir env2 = importModelToOllama dir env) := by
  have hp : p ≠ "" := ne_empty_of_trailing_slash p l hdata
  have hbe : (p == "") = false := by
    simp only [beq_eq_false_iff_ne]
    exact hp
  have hdet : detectModelType dir env.tree = ⟨.lora, some ""⟩ := by
    simp only [detectModelType, hsub, hconf, hbe]
    rw [lastSegment_trailing_slash p l hdata]
    simp
  have hres : importModelToOllama dir env = unresolvedResult := by
    apply import_unresolved dir env hz he
    · rw [hdet]
    · rw [hdet]
      rfl
  refine ⟨hdet, by rw [hres]; rfl, by rw [hres]; rfl, ?_⟩
  intro env2 hz2 he2 hsub2 hconf2
  have hdet2 : detectModelType dir env2.tree = ⟨.lora, none⟩ := by
    simp [detectModelType, hsub2, hconf2]
  have hres2 : importModelToOllama dir env2 = unresolvedResult := by
    apply import_unresolved dir env2 hz2 he2
    · rw [hdet2]
    · rw [hdet2]
      rfl
  rw [hres, hres2]

/-- Tree whose adapter configuration declares a trailing-slash base path. -/
def treeTrailingSlash : ExtractedTree :=
  { rootSubdirs := []
    adapterConfigAt := fun _ => .parsed (some "/data/checkpoints/")
    configJsonAt := fun _ => false }

/-- Environment of the trailing-slash scenario. -/
def envTrailingSlash : ImportEnv :=
  { zipExists := true
    extractOk := true
    tree := treeTrailingSlash
    baseCached := false
    curlExitCode := 0
    baseUnzipOk := true
    ollamaStdout := []
    ollamaExitCode := 0
    ollamaStderr := "" }

theorem trailing_slash_treated_as_unresolved_witness :
    detectModelType "models/m5" envTrailingSlash.tree = ⟨.lora, some ""⟩
    ∧ (importModelToOllama "models/m5" envTrailingSlash).outcome =
        .error unresolvedBaseModelMsg
    ∧ (importModelToOllama "models/m5" envTrailingSlash).downloadAttempted = false := by
  have h := trailing_slash_treated_as_unresolved "models/m5" envTrailingSlash
    "/data/checkpoints/" ("/data/checkpoints".data) (by decide) rfl (by rfl) rfl rfl
  exact ⟨h.1, h.2.1, h.2.2.1⟩

/-! ## Runtime alias derivation (`src/unnamed/part_003` line 367,
`src/api/v1.ts` line 270)

`const modelAlias = name.toLowerCase().replace(/[^a-z0-9]/g, "-")`:
lowercase the display name, then replace EACH character outside `[a-z0-9]`
with a dash.  The regex has no `+`, so consecutive non-alphanumeric
characters each produce their own dash. -/

/-- Is `c` an ASCII lowercase letter or digit (the `[a-z0-9]` class)? -/
def isLowerAlnum (c : Char) : Prop :=
  (97 ≤ c.toNat ∧ c.toNat ≤ 122) ∨ (48 ≤ c.toNat ∧ c.toNat ≤ 57)

instance (c : Char) : Decidable (isLowerAlnum c) := by
  unfold isLowerAlnum
  infer_instance

/-- `name.toLowerCase().replace(/[^a-z0-9]/g, "-")`, per character. -/
def sanitizeAlias (name : String) : String :=
  String.mk ((jsToLower name).data.map (fun c => if isLowerAlnum c then c else Char.ofNat 45))

/-- The per-character action of `sanitizeAlias`. -/
def sanitizeChar (c : Char) : Char :=
  if isLowerAlnum c.toLower then c.toLower else Char.ofNat 45

theorem sanitizeAlias_eq_map (name : String) :
    sanitizeAlias name = String.mk (name.data.map sanitizeChar) := by
  unfold sanitizeAlias jsToLower
  rw [List.map_map]
  rfl

theorem toLower_fix (c : Char) (h : isLowerAlnum c) : c.toLower = c := by
  simp only [Char.toLower]
  rw [if_neg]
  intro hc
  rcases h with ⟨h1, h2⟩ | ⟨h1, h2⟩ <;> omega

theorem sanitizeChar_idem (c : Char) : sanitizeChar (sanitizeChar c) = sanitizeChar c := by
  unfold sanitizeChar
  by_cases h : isLowerAlnum c.toLower
  · rw [if_pos h, toLower_fix _ h, if_pos h]
  · rw [if_neg h]
    decide

/-- C9 counterexample: a run of two non-alphanumeric characters in the
display name appears as TWO dashes in the alias, not as one — the
replacement is per character, not per run. -/
theorem alias_run_not_collapsed :
    sanitizeAlias "My Model!!v2" = "my-model--v2"
    ∧ sanitizeAlias "My Model!!v2" ≠ "my-model-v2" := by
  constructor
  · decide
  · decide

/-- C9 (amended): the alias is obtained from the display name by lowercasing
and replacing each non-alphanumeric character individually with a dash — so
the alias has exactly the length of the name (a run of k non-alphanumeric
characters appears as k dashes), every alias character is a lowercase
alphanumeric or a dash, and the derivation is a deterministic idempotent
function of the name. -/
theorem sanitizeAlias_per_character (name : String) :
    (sanitizeAlias name).length = name.length
    ∧ (∀ c ∈ (sanitizeAlias name).data, isLowerAlnum c ∨ c = Char.ofNat 45)
    ∧ sanitizeAlias (sanitizeAlias name) = sanitizeAlias name := by
  refine ⟨?_, ?_, ?_⟩
  · rw [sanitizeAlias_eq_map]
    show (name.data.map sanitizeChar).length = name.data.length
    rw [List.length_map]
  · intro c hc
    rw [sanitizeAlias_eq_map] at hc
    have hc2 : c ∈ name.data.map sanitizeChar := hc
    obtain ⟨x, _, hx⟩ := List.mem_map.mp hc2
    rw [← hx]
    unfold sanitizeChar
    by_cases h : isLowerAlnum x.toLower
    · rw [if_pos h]
      exact Or.inl h
    · rw [if_neg h]
      exact Or.inr rfl
  · rw [sanitizeAlias_eq_map, sanitizeAlias_eq_map]
    show String.mk ((name.data.map sanitizeChar).map sanitizeChar) =
      String.mk (name.data.map sanitizeChar)
    rw [List.map_map]
    congr 1
    apply List.map_congr_left
    intro x _
    exact sanitizeChar_idem x

theorem sanitizeAlias_per_character_witness :
    (sanitizeAlias "Prem AI 7B").length = ("Prem AI 7B").length
    ∧ sanitizeAlias (sanitizeAlias "Prem AI 7B") = sanitizeAlias "Prem AI 7B" := by
  have h := sanitizeAlias_per_character "Prem AI 7B"
  exact ⟨h.1, h.2.2⟩

end PremRunner
